import Mathlib

/-!
# Verification of the DMM flip-tracker market analysis engine

A shallow embedding of the analysis engine of `tracker_ui.py` (the
rolling price-history store, stability analyzer, opportunity scorer,
stable-pick selector, high-ticket classifier, market-mover detector and
the breach-window helper), together with theorems settling the frozen
claims about it.

Modelling conventions, used uniformly below:

* Python integers are `ℤ`; Python floats are exact rationals `ℚ`
  (the engine only adds, subtracts, multiplies and divides them, and the
  claims under verification do not depend on binary rounding).
* A price / timestamp field that the feed may omit is encoded as `0`:
  throughout the source every read of such a field either goes through
  Python truthiness (`if not x`, `x and y`, `x or 0`) or a
  `.get(key, 0)` default, under which `None` and `0` behave
  identically, so the two are indistinguishable to the engine.
* `math.log10` (used only inside scoring blends) and the square root
  inside `statistics.stdev` are abstracted as function parameters
  `log10 : ℚ → ℚ` and `sq : ℚ → ℚ`; every theorem quantifies over
  them, so the results hold for every interpretation of those
  primitives.  `sq` receives the (exact, Bessel-corrected) sample
  variance that `statistics.stdev` takes the square root of.
* Python dicts that the engine iterates over are association lists
  (`List (ℕ × _)`), preserving iteration order; dicts that are only
  read pointwise with a `0`/`{}` default (the volume map) are total
  functions.
* `list.sort(key=..., reverse=True)` is Timsort, a stable sort; it is
  embedded as `List.insertionSort` with the corresponding relation,
  which is also stable.
* The source's local variables inside each loop body are either named
  helper definitions (when a guard condition reads them) or `let`
  bindings inside the record builders `mk...` (when only the emitted
  row reads them); both are pure abbreviations of the same
  expressions.
-/

namespace DMM

/-- Python `int()` applied to an exact rational: truncation toward zero. -/
def pyTrunc (q : ℚ) : ℤ := if q < 0 then -⌊-q⌋ else ⌊q⌋

/-- Python `round()` to the nearest integer, halves to even, on an exact
rational. -/
def pyRound (q : ℚ) : ℤ :=
  let f := ⌊q⌋
  let r := q - f
  if r < 1/2 then f
  else if 1/2 < r then f + 1
  else if f % 2 = 0 then f else f + 1

/-- Python `round(x, 1)`: one decimal digit, halves to even. -/
def round1 (q : ℚ) : ℚ := (pyRound (q * 10) : ℚ) / 10

/-- `statistics.mean` on rationals (`0` on the empty list, which the
engine never hits: every call site guarantees a nonempty argument). -/
def mean (l : List ℚ) : ℚ := l.sum / l.length

/-- `statistics.mean` of a list of integers. -/
def meanI (l : List ℤ) : ℚ := mean (l.map (fun x => (x : ℚ)))

/-- The square of `statistics.stdev`: the Bessel-corrected *sample*
variance, dividing the sum of squared deviations by `n - 1`. -/
def sampleVariance (l : List ℚ) : ℚ :=
  (l.map (fun x => (x - mean l) ^ 2)).sum / ((l.length : ℚ) - 1)

/-- Modelled from the spec: the square of the *population* standard
deviation that §4.2 step 2 of the specification names (sum of squared
deviations divided by `n`).  The source has no such function; this
definition exists only to be compared with `sampleVariance`. -/
def popVariance (l : List ℚ) : ℚ :=
  (l.map (fun x => (x - mean l) ^ 2)).sum / (l.length : ℚ)

/-- Python slice `l[-n:]`: the last `n` elements (the whole list when it
is shorter than `n`). -/
def lastN (n : ℕ) (l : List α) : List α := l.drop (l.length - n)

/-- The 1% tax `int(high * 0.01)` that every margin computation in the
source subtracts. -/
def taxOf (high : ℤ) : ℤ := pyTrunc ((high : ℚ) * (1/100))

/-- `margin = high - low - int(high * 0.01)`, the per-unit after-tax
margin expression duplicated across all classifiers. -/
def flipMargin (high low : ℤ) : ℤ := high - low - taxOf high

/-- `margin_pct = (margin / low) * 100 if low > 0 else 0`. -/
def marginPctOf (margin low : ℤ) : ℚ :=
  if 0 < low then ((margin : ℚ) / low) * 100 else 0

/-- The freshness multiplier shared (by textual duplication) between
`find_opportunities` and `get_stable_picks`. -/
def freshMult (age : ℤ) : ℚ := if age < 60 then 1 else if age < 180 then 7/10 else 2/5

/-! ## Data model -/

/-- One feed quote: `{high, low, highTime, lowTime}`.  A missing or
`None` field is encoded as `0` (see the header notes). -/
structure Quote where
  high : ℤ
  low : ℤ
  highTime : ℤ
  lowTime : ℤ
deriving Repr, DecidableEq

/-- A catalog item: display name and per-period trade limit. -/
structure Item where
  name : String
  limit : ℤ
deriving Repr, DecidableEq

/-- One-hour trailing volume counts for one item; missing data is the
zero record (the source always reads these through `.get(..., 0) or 0`). -/
structure Volume where
  highPriceVolume : ℤ
  lowPriceVolume : ℤ
deriving Repr, DecidableEq

/-- One history sample as written by `record_prices`. -/
structure Sample where
  timestamp : ℤ
  buy : ℤ
  sell : ℤ
  margin_pct : ℚ
  volume : ℤ
deriving Repr, DecidableEq

/-- The all-zero quote: `prices.get(item_id_str, {})` read through
`.get(..., 0)` defaults. -/
def quoteD : Quote := ⟨0, 0, 0, 0⟩

/-- `high = max(api_high, api_low)` — the normalized sell price. -/
def normHigh (p : Quote) : ℤ := max p.high p.low

/-- `low = min(api_high, api_low)` — the normalized buy price. -/
def normLow (p : Quote) : ℤ := min p.high p.low

/-- `age = max(now - high_time, now - low_time)` (both sides known to be
present at every call site of this form). -/
def quoteAge (now : ℤ) (p : Quote) : ℤ := max (now - p.highTime) (now - p.lowTime)

/-- `age = max(...) if high_time and low_time else 9999`. -/
def ageOr9999 (now : ℤ) (p : Quote) : ℤ :=
  if p.highTime ≠ 0 ∧ p.lowTime ≠ 0 then quoteAge now p else 9999

/-- `spread_ratio = high / low if low > 0 else 999`. -/
def spreadRatio (high low : ℤ) : ℚ := if 0 < low then (high : ℚ) / low else 999

/-- `total_vol = buy side + sell side` of one volume record. -/
def totalVol (v : Volume) : ℤ := v.highPriceVolume + v.lowPriceVolume

/-- `max_qty = min(capital // price, limit) if price > 0 else 0`
(Python `//` is floor division). -/
def maxQty (capital price limit : ℤ) : ℤ :=
  if 0 < price then min (Int.fdiv capital price) limit else 0

/-! ## Breach system -/

def BREACH_HOURS_UTC : List ℕ := [2, 10, 19]

def BREACH_DURATION_HOURS : ℕ := 2

/-- Known post-breach items: `(item id, display name, boost %)`, in the
source dict's insertion order. -/
def BREACH_ITEMS : List (ℕ × String × ℚ) :=
  [(3024, "Super restore(4)", 258/10),
   (391, "Manta ray", 142/10),
   (6685, "Saradomin brew(4)", 126/10),
   (385, "Shark", 97/10),
   (9075, "Astral rune", 63/10),
   (560, "Death rune", 51/10)]

/-- The result record of `get_breach_info`, minus the Pacific-time
display strings and the textual countdown (pure presentation).
`next_is_tomorrow` captures the `+ timedelta(days=1)` branch that rolls
the next breach to the following day. -/
structure BreachInfo where
  in_post_breach : Bool
  current_breach : Option ℕ
  next_breach : ℕ
  hours_until : ℤ
  mins_until : ℤ
  next_is_tomorrow : Bool
deriving Repr, DecidableEq

/-- The first breach hour whose 2-hour post-window contains the current
hour (the `for breach_hour in BREACH_HOURS_UTC` loop with `break`). -/
def findCurrentBreach (hour : ℕ) : Option ℕ :=
  BREACH_HOURS_UTC.find? (fun b => decide (b ≤ hour ∧ hour < b + BREACH_DURATION_HOURS))

/-- The first breach hour later today (the `for breach_hour in
sorted(BREACH_HOURS_UTC)` loop with `break`). -/
def findNextBreach (hour : ℕ) (minute : ℤ) : Option ℕ :=
  (BREACH_HOURS_UTC.insertionSort (· ≤ ·)).find?
    (fun b => decide (hour < b) || (decide (b = hour) && decide (minute = 0)))

/-- `get_breach_info`, as a pure function of the current UTC hour and
minute. -/
def get_breach_info (hour : ℕ) (minute : ℤ) : BreachInfo :=
  let current := findCurrentBreach hour
  let nextOpt := findNextBreach hour minute
  let next := nextOpt.getD (BREACH_HOURS_UTC.headD 0)
  let hoursUntil0 : ℤ :=
    match nextOpt with
    | none => (24 - (hour : ℤ)) + next
    | some nb => (nb : ℤ) - hour
  let minsUntil : ℤ := (60 - minute) % 60
  let hoursUntil1 := if 0 < minsUntil then hoursUntil0 - 1 else hoursUntil0
  let hoursUntil2 := if hoursUntil1 < 0 then hoursUntil1 + 24 else hoursUntil1
  { in_post_breach := current.isSome
    current_breach := current
    next_breach := next
    hours_until := hoursUntil2
    mins_until := minsUntil
    next_is_tomorrow :=
      decide (next ≤ hour) && !(decide (next = hour) && decide (minute = 0)) }

/-- One entry of the static breach scanner's output.  Note the field
orientation taken verbatim from the source: `buy` holds the raw `high`
and `sell` the raw `low`. -/
structure BreachOpp where
  name : String
  item_id : ℕ
  buy : ℤ
  sell : ℤ
  margin : ℤ
  margin_pct : ℚ
  volume : ℤ
  limit : ℤ
  boost : ℚ
deriving Repr, DecidableEq

/-- The row the static breach scanner emits for one listed item with a
usable quote. -/
def mkBreachOpp (volumes : ℕ → Volume) (itemsC : List (ℕ × Item))
    (bi : ℕ × String × ℚ) (p : Quote) : BreachOpp :=
  { name := bi.2.1, item_id := bi.1, buy := p.high, sell := p.low,
    margin := flipMargin p.high p.low,
    margin_pct := marginPctOf (flipMargin p.high p.low) p.low,
    volume := totalVol (volumes bi.1),
    limit := ((List.lookup bi.1 itemsC).map Item.limit).getD 1,
    boost := bi.2.2 }

/-- `scan_breach_items`: walk the static breach list, skip items with a
missing side or `high <= low`, and sort by boost descending. -/
def scan_breach_items (prices : List (ℕ × Quote)) (volumes : ℕ → Volume)
    (itemsC : List (ℕ × Item)) : List BreachOpp :=
  (BREACH_ITEMS.filterMap (fun bi =>
    match List.lookup bi.1 prices with
    | none => none
    | some p =>
      if p.high = 0 ∨ p.low = 0 ∨ p.high ≤ p.low then none else
      some (mkBreachOpp volumes itemsC bi p))).insertionSort
    (fun a b => b.boost ≤ a.boost)

/-! ## Stability analyzer -/

/-- The price-trend labels of `analyze_stability` (the emoji text of the
source labels carries no further information). -/
inductive PriceTrend where
  | pumping
  | dumping
  | rising
  | falling
  | stable
deriving Repr, DecidableEq

/-- The margin-trend labels of `analyze_stability`. -/
inductive MarginTrend where
  | expanding
  | squeezing
  | stable
deriving Repr, DecidableEq

/-- The analyzer's result record.  `margin_std` is
`sq (sampleVariance margins)` with `sq` the abstracted square root (see
the header notes); all other fields are exactly the source dict's
entries, with `avg_buy`/`avg_sell` truncated by `int(...)` as in the
source. -/
structure Stability where
  avg_margin : ℚ
  avg_buy : ℤ
  avg_sell : ℤ
  avg_volume : ℚ
  margin_std : ℚ
  margin_trend : MarginTrend
  price_trend : PriceTrend
  price_change : ℚ
  stability_score : ℚ
  samples : ℕ
  data_age : ℤ
  latest_buy : ℤ
  latest_sell : ℤ
  latest_margin : ℚ
deriving Repr, DecidableEq

/-- The 30-minute window with fallback, duplicated textually in
`analyze_stability` and `find_market_movers`: samples younger than 1800
seconds, else the last 10 samples of the full buffer (the inner
`len(h) >= 3` test is the source's, though it is always true where this
runs). -/
def recentWindow (now : ℤ) (h : List Sample) : List Sample :=
  if (h.filter (fun x => decide (now - x.timestamp < 1800))).length < 3 then
    (if 3 ≤ h.length then lastN 10 h else h)
  else h.filter (fun x => decide (now - x.timestamp < 1800))

/-- A default `Sample`; stands in for the unreachable subscripts of the
source (`recent_h[-1]` is only evaluated on nonempty windows). -/
def sampleD : Sample := ⟨0, 0, 0, 0, 0⟩

/-- The first-half/second-half relative buy-price change (percent),
duplicated textually in `analyze_stability` and `find_market_movers`:
split at `len // 2`, `(second - first) / first * 100` guarded by the
truthiness of the first-half mean (and `0` when the split is empty). -/
def halfPriceChange (buy_prices : List ℤ) : ℚ :=
  let mid := buy_prices.length / 2
  if 0 < mid then
    (if meanI (buy_prices.take mid) ≠ 0 then
      (meanI (buy_prices.drop mid) - meanI (buy_prices.take mid)) /
        meanI (buy_prices.take mid) * 100
    else 0)
  else 0

/-- The first-half/second-half margin-percent change (points); the
split index is `len(buy_prices) // 2`, which equals `len // 2` of the
margins list (same window). -/
def halfMarginChange (margins : List ℚ) : ℚ :=
  let mid := margins.length / 2
  if 0 < mid then mean (margins.drop mid) - mean (margins.take mid) else 0

/-- The analyzer's price-trend label from the half-split change. -/
def priceTrendOf (pc : ℚ) : PriceTrend :=
  if 10 < pc then .pumping
  else if pc < -10 then .dumping
  else if 3 < pc then .rising
  else if pc < -3 then .falling
  else .stable

/-- The analyzer's margin-trend label from the half-split change. -/
def marginTrendOf (mc : ℚ) : MarginTrend :=
  if 3 < mc then .expanding
  else if mc < -3 then .squeezing
  else .stable

/-- The freshness penalty on the age of the window's last sample. -/
def freshPenalty (data_age : ℤ) : ℚ :=
  if 600 < data_age then 30 else if 300 < data_age then 15 else 0

/-- The analyzer's result on a selected window `recent_h` (the body
after the window selection; every field as in the source dict). -/
def mkStability (sq : ℚ → ℚ) (now : ℤ) (recent_h : List Sample) : Stability :=
  let margins := recent_h.map (·.margin_pct)
  let buy_prices := recent_h.map (·.buy)
  let sell_prices := recent_h.map (·.sell)
  let volumes_hist := recent_h.map (·.volume)
  let avg_margin := mean margins
  let margin_std := if 1 < margins.length then sq (sampleVariance margins) else 0
  let last_timestamp := if recent_h ≠ [] then (recent_h.getLastD sampleD).timestamp else 0
  let data_age := now - last_timestamp
  let price_trend := priceTrendOf (halfPriceChange buy_prices)
  let score := max 0 (50 - margin_std * 10) + min 30 avg_margin +
    (if price_trend = .stable then 10 else 0) + min 10 (recent_h.length : ℚ) -
    freshPenalty data_age
  { avg_margin := avg_margin
    avg_buy := pyTrunc (meanI buy_prices)
    avg_sell := pyTrunc (meanI sell_prices)
    avg_volume := if volumes_hist ≠ [] then meanI volumes_hist else 0
    margin_std := margin_std
    margin_trend := marginTrendOf (halfMarginChange margins)
    price_trend := price_trend
    price_change := halfPriceChange buy_prices
    stability_score := min 100 (max 0 score)
    samples := recent_h.length
    data_age := data_age
    latest_buy := (recent_h.getLastD sampleD).buy
    latest_sell := (recent_h.getLastD sampleD).sell
    latest_margin := (recent_h.getLastD sampleD).margin_pct }

/-- `analyze_stability` for one item's history list.  `sq` abstracts the
square root inside `statistics.stdev` (it is applied to the exact sample
variance); `now` is `int(time.time())`. -/
def analyze_stability (sq : ℚ → ℚ) (now : ℤ) (h : List Sample) : Option Stability :=
  if h.length < 3 then none else
  some (mkStability sq now (recentWindow now h))

/-! ## Opportunity scorer -/

/-- The volume-based strategy label. -/
inductive Strategy where
  | active
  | moderate
  | passive
deriving Repr, DecidableEq

/-- The spread/margin risk label. -/
inductive RiskLabel where
  | highR
  | medR
  | lowR
deriving Repr, DecidableEq

/-- One live-flip candidate, the full data superset that
`find_opportunities` emits (display-only string formatting dropped). -/
structure Opp where
  id : ℕ
  name : String
  buy : ℤ
  sell : ℤ
  margin : ℤ
  margin_pct : ℚ
  volume : ℤ
  buy_vol : ℤ
  sell_vol : ℤ
  vol_2hr : ℤ
  vol_4hr : ℤ
  profit : ℤ
  gp_per_hr : ℤ
  gp_per_day : ℤ
  gp_per_limit : ℤ
  roi_pct : ℚ
  qty : ℤ
  limit : ℤ
  capital_locked : ℤ
  age : ℤ
  strategy : Strategy
  risk : RiskLabel
  smart_agg : ℤ
  smart_bal : ℤ
  smart_con : ℤ
deriving DecidableEq

/-- The strategy label from a volume figure. -/
def strategyOf (vol : ℤ) : Strategy :=
  if 100 ≤ vol then .active else if 30 ≤ vol then .moderate else .passive

/-- The risk label from a spread ratio and margin percent. -/
def riskOf (spread_ratio margin_pct : ℚ) : RiskLabel :=
  if 3/2 < spread_ratio then .highR
  else if 6/5 < spread_ratio ∨ 20 < margin_pct then .medR
  else .lowR

/-- The row `find_opportunities` emits for one item that passed every
hard filter. -/
def mkOpp (log10 : ℚ → ℚ) (now : ℤ) (capital : ℤ) (item : Item)
    (x : ℕ × Quote) (vol : Volume) : Opp :=
  let high := normHigh x.2
  let low := normLow x.2
  let age := quoteAge now x.2
  let total_vol := totalVol vol
  let margin := flipMargin high low
  let margin_pct := marginPctOf margin low
  let max_qty := maxQty capital high item.limit
  let vol_score := log10 ((max total_vol 1 : ℤ) : ℚ) * 25
  let fresh_score := freshMult age * 50
  let profit_score := min 50 (((margin * max_qty : ℤ) : ℚ) / 100)
  let gp_per_hr := pyTrunc ((margin : ℚ) *
    min ((total_vol : ℚ) * (7/100)) ((item.limit : ℚ) / 4))
  { id := x.1, name := item.name, buy := low, sell := high,
    margin := margin, margin_pct := margin_pct, volume := total_vol,
    buy_vol := vol.highPriceVolume, sell_vol := vol.lowPriceVolume,
    vol_2hr := total_vol * 2, vol_4hr := total_vol * 4,
    profit := margin * max_qty, gp_per_hr := gp_per_hr,
    gp_per_day := gp_per_hr * 24, gp_per_limit := margin * item.limit,
    roi_pct := round1 (marginPctOf margin low), qty := max_qty,
    limit := item.limit, capital_locked := low * max_qty, age := age,
    strategy := strategyOf total_vol,
    risk := riskOf (spreadRatio high low) margin_pct,
    smart_agg := pyTrunc (profit_score * (5/10) + vol_score * (3/10) + fresh_score * (2/10)),
    smart_bal := pyTrunc (profit_score * (33/100) + vol_score * (33/100) + fresh_score * (34/100)),
    smart_con := pyTrunc (fresh_score * (4/10) + vol_score * (4/10) + profit_score * (2/10)) }

/-- The per-item body of the `find_opportunities` loop; `none` models
`continue`; the guard chain is the source's `continue` chain in order. -/
def processOpp (log10 : ℚ → ℚ) (now : ℤ) (itemsC : List (ℕ × Item))
    (volumes : ℕ → Volume) (capital : ℤ) (min_margin max_margin : ℚ)
    (x : ℕ × Quote) : Option Opp :=
  match List.lookup x.1 itemsC with
  | none => none
  | some item =>
    if x.2.high = 0 ∨ x.2.low = 0 ∨ x.2.highTime = 0 ∨ x.2.lowTime = 0 then none else
    if 300 < quoteAge now x.2 ∨ normLow x.2 < 10 ∨ capital < normHigh x.2 then none else
    if 2 < spreadRatio (normHigh x.2) (normLow x.2) then none else
    if totalVol (volumes x.1) < 10 then none else
    if marginPctOf (flipMargin (normHigh x.2) (normLow x.2)) (normLow x.2) < min_margin ∨
       max_margin < marginPctOf (flipMargin (normHigh x.2) (normLow x.2)) (normLow x.2) then none else
    if maxQty capital (normHigh x.2) item.limit < 1 then none else
    some (mkOpp log10 now capital item x (volumes x.1))

/-- `find_opportunities`: filter and score every quoted item, then rank
by descending aggressive score (stable sort). -/
def find_opportunities (log10 : ℚ → ℚ) (now : ℤ) (itemsC : List (ℕ × Item))
    (prices : List (ℕ × Quote)) (volumes : ℕ → Volume) (capital : ℤ)
    (min_margin max_margin : ℚ) : List Opp :=
  (prices.filterMap (processOpp log10 now itemsC volumes capital min_margin max_margin)).insertionSort
    (fun a b => b.smart_agg ≤ a.smart_agg)

/-! ## History store -/

/-- Append one sample to one item's buffer and trim to the most recent
120 (`history[item_id].append(...)` followed by the `[-120:]` slice). -/
def appendTrim (buf : List Sample) (s : Sample) : List Sample :=
  if 120 < (buf ++ [s]).length then lastN 120 (buf ++ [s]) else buf ++ [s]

/-- The item's buffer, or a fresh empty one (`if item_id not in history:
history[item_id] = []`). -/
def getHist (history : List (ℕ × List Sample)) (k : ℕ) : List Sample :=
  (List.lookup k history).getD []

/-- Replace the value stored at key `k`, or append a new binding at the
end — Python dict assignment with insertion-order iteration. -/
def upsert (history : List (ℕ × List Sample)) (k : ℕ) (v : List Sample) :
    List (ℕ × List Sample) :=
  if history.any (fun e => decide (e.1 = k)) then
    history.map (fun e => if e.1 = k then (k, v) else e)
  else history ++ [(k, v)]

/-- The sample `record_prices` derives from one opportunity row. -/
def sampleOf (now : ℤ) (o : Opp) : Sample :=
  { timestamp := now, buy := o.buy, sell := o.sell,
    margin_pct := o.margin_pct, volume := o.volume }

/-- `record_prices`: one append cycle over the scorer's output. -/
def record_prices (now : ℤ) (opps : List Opp) (history : List (ℕ × List Sample)) :
    List (ℕ × List Sample) :=
  opps.foldl (fun h o => upsert h o.id (appendTrim (getHist h o.id) (sampleOf now o))) history

/-- Every buffer of the store holds at most 120 samples. -/
def historyBounded (history : List (ℕ × List Sample)) : Bool :=
  history.all (fun e => decide (e.2.length ≤ 120))

/-! ## Stable-pick selector -/

/-- One stable pick: the stability-qualified item re-priced at the live
quote (full data superset of `get_stable_picks`). -/
structure StablePick where
  id : ℕ
  name : String
  buy : ℤ
  sell : ℤ
  margin : ℤ
  margin_pct : ℚ
  avg_buy : ℤ
  avg_sell : ℤ
  avg_margin : ℚ
  volume : ℤ
  buy_vol : ℤ
  sell_vol : ℤ
  vol_2hr : ℤ
  vol_4hr : ℤ
  profit : ℤ
  gp_per_hr : ℤ
  gp_per_day : ℤ
  gp_per_limit : ℤ
  roi_pct : ℚ
  qty : ℤ
  limit : ℤ
  capital_locked : ℤ
  age : ℤ
  strategy : Strategy
  risk : RiskLabel
  margin_trend : MarginTrend
  price_trend : PriceTrend
  score : ℚ
  samples : ℕ
  smart_agg : ℤ
  smart_bal : ℤ
  smart_con : ℤ
deriving DecidableEq

/-- The row `get_stable_picks` emits for one qualifying item, re-priced
at the live quote `p`. -/
def mkStablePick (log10 : ℚ → ℚ) (now : ℤ) (capital : ℤ) (item : Item)
    (k : ℕ) (a : Stability) (p : Quote) (vol_data : Volume) : StablePick :=
  let high := normHigh p
  let low := normLow p
  let age := ageOr9999 now p
  let max_qty := maxQty capital low item.limit
  let vol := totalVol vol_data
  let margin := flipMargin high low
  let live_margin_pct := marginPctOf margin low
  let vol_score := log10 ((max vol 1 : ℤ) : ℚ) * 25
  let fresh_score := freshMult age * 50
  let profit_score := min 50 (((margin * max_qty : ℤ) : ℚ) / 100)
  let stability_score := a.stability_score
  let gp_per_hr := pyTrunc ((margin : ℚ) *
    min ((vol : ℚ) * (7/100)) ((item.limit : ℚ) / 4))
  { id := k, name := item.name, buy := low, sell := high, margin := margin,
    margin_pct := live_margin_pct, avg_buy := a.avg_buy,
    avg_sell := a.avg_sell, avg_margin := a.avg_margin, volume := vol,
    buy_vol := vol_data.highPriceVolume, sell_vol := vol_data.lowPriceVolume,
    vol_2hr := vol * 2, vol_4hr := vol * 4, profit := margin * max_qty,
    gp_per_hr := gp_per_hr, gp_per_day := gp_per_hr * 24,
    gp_per_limit := margin * item.limit,
    roi_pct := round1 (marginPctOf margin low), qty := max_qty,
    limit := item.limit, capital_locked := low * max_qty, age := age,
    strategy := strategyOf vol,
    risk := riskOf (spreadRatio high low) live_margin_pct,
    margin_trend := a.margin_trend, price_trend := a.price_trend,
    score := a.stability_score, samples := a.samples,
    smart_agg := pyTrunc (profit_score * (4/10) + vol_score * (3/10) +
      fresh_score * (2/10) + stability_score * (1/10)),
    smart_bal := pyTrunc (profit_score * (25/100) + vol_score * (25/100) +
      fresh_score * (25/100) + stability_score * (25/100)),
    smart_con := pyTrunc (stability_score * (4/10) + fresh_score * (3/10) +
      vol_score * (2/10) + profit_score * (1/10)) }

/-- The per-item body of the `get_stable_picks` loop over
`history.keys()`; `none` models `continue`; the guard chain is the
source's `continue` chain in order. -/
def processStable (sq log10 : ℚ → ℚ) (now : ℤ) (itemsC : List (ℕ × Item))
    (history : List (ℕ × List Sample)) (prices : List (ℕ × Quote))
    (volumes : ℕ → Volume) (capital : ℤ) (filter_stale filter_low_vol : Bool)
    (k : ℕ) : Option StablePick :=
  match List.lookup k itemsC with
  | none => none
  | some item =>
    match analyze_stability sq now (getHist history k) with
    | none => none
    | some a =>
      if a.samples < 3 ∨ a.stability_score < 20 then none else
      if ((List.lookup k prices).getD quoteD).high = 0 ∨
         ((List.lookup k prices).getD quoteD).low = 0 then none else
      if capital < normLow ((List.lookup k prices).getD quoteD) then none else
      if maxQty capital (normLow ((List.lookup k prices).getD quoteD)) item.limit < 1 then none else
      if filter_stale ∧ 600 < ageOr9999 now ((List.lookup k prices).getD quoteD) then none else
      if filter_low_vol ∧ totalVol (volumes k) < 5 then none else
      some (mkStablePick log10 now capital item k a
        ((List.lookup k prices).getD quoteD) (volumes k))

/-- `get_stable_picks`: qualify via the analyzer, re-price at the live
quote, rank by descending aggressive score (stable sort). -/
def get_stable_picks (sq log10 : ℚ → ℚ) (now : ℤ) (itemsC : List (ℕ × Item))
    (history : List (ℕ × List Sample)) (prices : List (ℕ × Quote))
    (volumes : ℕ → Volume) (capital : ℤ) (filter_stale filter_low_vol : Bool) :
    List StablePick :=
  ((history.map Prod.fst).filterMap
    (processStable sq log10 now itemsC history prices volumes capital
      filter_stale filter_low_vol)).insertionSort
    (fun a b => b.smart_agg ≤ a.smart_agg)

/-! ## High-ticket classifier -/

/-- The human-readable rejection reasons of `find_high_ticket_items`
(identified by which check emitted them; the formatted strings are
presentation). -/
inductive Reason where
  | noValidPrices
  | stalePrices
  | badSpread
  | cantAfford
  | lowMargin
  | cantBuyAny
deriving Repr, DecidableEq

/-- `high` after the high-ticket inverted-price handling: normalized
when both sides are truthy, otherwise the raw `high`. -/
def htHigh (p : Quote) : ℤ := if p.high ≠ 0 ∧ p.low ≠ 0 then max p.high p.low else p.high

/-- `low` after the high-ticket inverted-price handling. -/
def htLow (p : Quote) : ℤ := if p.high ≠ 0 ∧ p.low ≠ 0 then min p.high p.low else p.low

/-- The high-ticket spread ratio, guarded by the truthiness of both
sides as in the source. -/
def htSpread (p : Quote) : ℚ :=
  if htHigh p ≠ 0 ∧ htLow p ≠ 0 ∧ 0 < htLow p then ((htHigh p : ℤ) : ℚ) / htLow p else 999

/-- The high-ticket margin (`0` when a side is missing). -/
def htMargin (p : Quote) : ℤ :=
  if htHigh p ≠ 0 ∧ htLow p ≠ 0 then flipMargin (htHigh p) (htLow p) else 0

/-- The high-ticket margin percent (`0` when `low` is missing or not
positive). -/
def htMarginPct (p : Quote) : ℚ :=
  if htLow p ≠ 0 ∧ 0 < htLow p then ((htMargin p : ℤ) : ℚ) / htLow p * 100 else 0

/-- The high-ticket `max_qty` (`0` unless `high` is truthy, positive and
affordable). -/
def htMaxQty (capital : ℤ) (item : Item) (p : Quote) : ℤ :=
  if htHigh p ≠ 0 ∧ 0 < htHigh p ∧ htHigh p ≤ capital then
    min (Int.fdiv capital (htHigh p)) item.limit else 0

/-- The rejection-reason accumulation of the high-ticket loop, in
source order (`low_margin` and `cant_buy_any` fire only on an empty
prior list, as in the source). -/
def htReasons (now capital : ℤ) (item : Item) (p : Quote) : List Reason :=
  let reasons1 : List Reason :=
    if htHigh p = 0 ∨ htLow p = 0 ∨ p.highTime = 0 ∨ p.lowTime = 0 then [.noValidPrices] else []
  let reasons2 := if 86400 < ageOr9999 now p then reasons1 ++ [.stalePrices] else reasons1
  let reasons3 := if 5/2 < htSpread p then reasons2 ++ [.badSpread] else reasons2
  let reasons4 := if htHigh p ≠ 0 ∧ capital < htHigh p then reasons3 ++ [.cantAfford] else reasons3
  let reasons5 := if htMarginPct p < 2 ∧ reasons4 = [] then reasons4 ++ [.lowMargin] else reasons4
  if htMaxQty capital item p < 1 ∧ htHigh p ≠ 0 ∧ htHigh p ≤ capital ∧ reasons5 = [] then
    reasons5 ++ [.cantBuyAny] else reasons5

/-- The smart-volume estimate `hourly_vol` for a high-ticket item (the
fractional per-hour rate inferred from quote age when no explicit
volume exists). -/
def htHourlyVol (api_vol age : ℤ) : ℚ :=
  if 0 < api_vol then (api_vol : ℚ)
  else if age < 3600 then 1
  else if age < 14400 then 1/4
  else if age < 43200 then 2/25
  else if age < 86400 then 1/25
  else 0

/-- The smart-volume estimate `daily_vol` for a high-ticket item. -/
def htDailyVol (api_vol age : ℤ) : ℤ :=
  if 0 < api_vol then api_vol * 24
  else if age < 3600 then 24
  else if age < 14400 then 6
  else if age < 43200 then 2
  else if age < 86400 then 1
  else 0

/-- The hours-tiered high-ticket freshness multiplier. -/
def htFreshMult (age : ℤ) : ℚ :=
  if age < 300 then 1
  else if age < 1800 then 9/10
  else if age < 3600 then 8/10
  else if age < 14400 then 6/10
  else 4/10

/-- A passed high-ticket row (display-only strings dropped;
`risk_level` is the count of risk factors behind the risk indicator). -/
structure HTEntry where
  id : ℕ
  name : String
  buy : ℤ
  sell : ℤ
  margin : ℤ
  margin_pct : ℚ
  volume : ℚ
  buy_vol : ℤ
  sell_vol : ℤ
  vol_2hr : ℚ
  vol_4hr : ℚ
  daily_vol : ℤ
  profit : ℤ
  gp_per_hr : ℤ
  gp_per_day : ℤ
  gp_per_limit : ℤ
  roi_pct : ℚ
  qty : ℤ
  limit : ℤ
  capital_locked : ℤ
  age : ℤ
  risk_level : ℕ
  flip_score : ℤ
  smart_agg : ℤ
  smart_bal : ℤ
  smart_con : ℤ
deriving DecidableEq

/-- A rejected above-threshold row, kept with its reasons.  Field
orientation verbatim from the source: `buy` holds `high` and `sell`
holds `low` in this list. -/
structure FilteredEntry where
  name : String
  buy : ℤ
  sell : ℤ
  margin_pct : ℚ
  volume : ℚ
  age : ℤ
  reasons : List Reason
deriving DecidableEq

/-- A rare item with no quote at all. -/
structure NoDataEntry where
  name : String
  limit : ℤ
deriving Repr, DecidableEq

/-- The `filter_stats` counters (`no_volume` exists in the source dict
but is never incremented). -/
structure HTStats where
  total_above_threshold : ℕ
  no_valid_prices : ℕ
  stale_prices : ℕ
  bad_spread : ℕ
  cant_afford : ℕ
  no_volume : ℕ
  low_margin : ℕ
  cant_buy_any : ℕ
  no_price_data : ℕ
  passed : ℕ
deriving Repr, DecidableEq

def zeroHTStats : HTStats := ⟨0, 0, 0, 0, 0, 0, 0, 0, 0, 0⟩

/-- The rejected-row record for one above-threshold item. -/
def mkFilteredEntry (now capital : ℤ) (item : Item) (x : ℕ × Quote)
    (v : Volume) : FilteredEntry :=
  { name := item.name, buy := htHigh x.2, sell := htLow x.2,
    margin_pct := round1 (htMarginPct x.2),
    volume := htHourlyVol (totalVol v) (ageOr9999 now x.2),
    age := ageOr9999 now x.2, reasons := htReasons now capital item x.2 }

/-- The passed-row record for one above-threshold item that cleared
every relaxed filter. -/
def mkHTEntry (log10 : ℚ → ℚ) (now capital : ℤ) (item : Item)
    (x : ℕ × Quote) (v : Volume) : HTEntry :=
  let p := x.2
  let age := ageOr9999 now p
  let api_vol := totalVol v
  let hourly_vol := htHourlyVol api_vol age
  let daily_vol := htDailyVol api_vol age
  let max_qty := htMaxQty capital item p
  let profit_per_cycle := htMargin p * max_qty
  let capital_locked := if htHigh p ≠ 0 then htHigh p * max_qty else 0
  let roi_pct : ℚ := if 0 < capital_locked then
    ((profit_per_cycle : ℤ) : ℚ) / capital_locked * 100 else 0
  let gp_per_day := profit_per_cycle * min daily_vol item.limit
  let risk_level : ℕ :=
    (if hourly_vol = 0 then 1 else 0) + (if 3600 < age then 1 else 0) +
    (if 3/2 < htSpread p then 1 else 0)
  let fresh_score := htFreshMult age * 100
  let vol_score := (if 0 < hourly_vol then (1 : ℚ) else 1/2) * 100
  let flip_score0 := pyTrunc (min 100 ((profit_per_cycle : ℚ) / 5000) * (40/100) +
    min 100 (roi_pct * 10) * (25/100) + fresh_score * (25/100) + vol_score * (10/100))
  let vol_score_raw := log10 (max hourly_vol (1/10)) * 25
  let profit_score_raw := min 50 ((profit_per_cycle : ℚ) / 100)
  { id := x.1, name := item.name, buy := htLow p, sell := htHigh p,
    margin := htMargin p, margin_pct := htMarginPct p, volume := hourly_vol,
    buy_vol := v.highPriceVolume, sell_vol := v.lowPriceVolume,
    vol_2hr := hourly_vol * 2, vol_4hr := hourly_vol * 4,
    daily_vol := daily_vol, profit := profit_per_cycle,
    gp_per_hr := pyTrunc (if gp_per_day ≠ 0 then ((gp_per_day : ℤ) : ℚ) / 24 else 0),
    gp_per_day := gp_per_day, gp_per_limit := htMargin p * item.limit,
    roi_pct := round1 roi_pct, qty := max_qty, limit := item.limit,
    capital_locked := capital_locked, age := age, risk_level := risk_level,
    flip_score := pyTrunc ((flip_score0 : ℚ) * (1 - (risk_level : ℚ) * (1/10))),
    smart_agg := pyTrunc (profit_score_raw * (5/10) + vol_score_raw * (3/10) +
      fresh_score * (2/10) / 100 * 50),
    smart_bal := pyTrunc (profit_score_raw * (33/100) + vol_score_raw * (33/100) +
      fresh_score * (34/100) / 100 * 50),
    smart_con := pyTrunc (fresh_score * (4/10) / 100 * 50 +
      vol_score_raw * (4/10) + profit_score_raw * (2/10)) }

/-- Classification of one quoted item by the high-ticket loop body. -/
inductive HTRes where
  | skip : HTRes
  | filtered : FilteredEntry → HTRes
  | passed : HTEntry → HTRes
deriving DecidableEq

def HTRes.filteredE : HTRes → Option FilteredEntry
  | .filtered e => some e
  | _ => none

def HTRes.passedE : HTRes → Option HTEntry
  | .passed e => some e
  | _ => none

def HTRes.isSkip : HTRes → Bool
  | .skip => true
  | _ => false

/-- The fractional position `0.75 * (n - 1)` that
`np.percentile(_, 75)` interpolates at. -/
def p75pos (s : List ℤ) : ℚ := 3 * ((s.length : ℚ) - 1) / 4

/-- The lower order-statistic index for the 75th percentile. -/
def p75idx (s : List ℤ) : ℕ := (⌊p75pos s⌋).toNat

/-- Linear interpolation between the two order statistics around the
75th-percentile position of an (already sorted) list. -/
def percentileBody (s : List ℤ) : ℚ :=
  ((s.getD (p75idx s) 0 : ℤ) : ℚ) +
    (p75pos s - ⌊p75pos s⌋) *
      (((s.getD (p75idx s + 1) (s.getD (p75idx s) 0) : ℤ) : ℚ) -
        ((s.getD (p75idx s) 0 : ℤ) : ℚ))

/-- The interpolated percentile `np.percentile(l, 75)`: sort ascending,
take position `0.75 * (n - 1)` and interpolate linearly between the two
neighbouring order statistics (`0` on the empty list, which the caller
guards against). -/
def percentile75 (l : List ℤ) : ℚ :=
  if l.insertionSort (· ≤ ·) = [] then 0
  else percentileBody (l.insertionSort (· ≤ ·))

/-- The population `all_prices` that the source feeds to
`np.percentile`: the raw `high` field of each quote, kept when
`high and high > 0`. -/
def allHighPrices (prices : List (ℕ × Quote)) : List ℤ :=
  prices.filterMap (fun e => if e.2.high ≠ 0 ∧ 0 < e.2.high then some e.2.high else none)

/-- The threshold the code computes. -/
def codeHighTicketThreshold (prices : List (ℕ × Quote)) : ℚ :=
  percentile75 (allHighPrices prices)

/-- Modelled from the spec: the threshold §4.5 words as "the 75th
percentile of all current normalized sell prices across items with any
price data" — the normalized sell price `max(high, low)` of every quote
with at least one side present.  The source has no such computation;
this definition exists only to be compared with
`codeHighTicketThreshold`. -/
def specHighTicketThreshold (prices : List (ℕ × Quote)) : ℚ :=
  percentile75 (prices.filterMap (fun e =>
    if e.2.high ≠ 0 ∨ e.2.low ≠ 0 then some (max e.2.high e.2.low) else none))

/-- The per-item body of the quoted-items loop of
`find_high_ticket_items` (skip below threshold, reject with reasons, or
pass). -/
def processHT (log10 : ℚ → ℚ) (now : ℤ) (itemsC : List (ℕ × Item))
    (volumes : ℕ → Volume) (capital : ℤ) (threshold : ℚ)
    (x : ℕ × Quote) : HTRes :=
  match List.lookup x.1 itemsC with
  | none => .skip
  | some item =>
    if max x.2.high x.2.low = 0 ∨ ((max x.2.high x.2.low : ℤ) : ℚ) < threshold then .skip else
    if htReasons now capital item x.2 ≠ [] then
      .filtered (mkFilteredEntry now capital item x (volumes x.1))
    else .passed (mkHTEntry log10 now capital item x (volumes x.1))

/-- The 5-tuple `find_high_ticket_items` returns (the `int(...)`
truncated threshold and the stats counters included).  When
`all_prices` is empty the source returns an incomplete 4-tuple — a
latent arity slip at the call site — modelled here as the all-empty
record. -/
structure HTOutput where
  high_ticket : List HTEntry
  filtered_items : List FilteredEntry
  no_data_items : List NoDataEntry
  threshold : ℤ
  stats : HTStats
deriving DecidableEq

/-- `find_high_ticket_items`.  The stats counters are recovered from the
per-item classifications: each counter counts exactly the loop
iterations that incremented it in the source. -/
def find_high_ticket_items (log10 : ℚ → ℚ) (now : ℤ) (itemsC : List (ℕ × Item))
    (prices : List (ℕ × Quote)) (volumes : ℕ → Volume) (capital : ℤ) : HTOutput :=
  if allHighPrices prices = [] then
    { high_ticket := [], filtered_items := [], no_data_items := [],
      threshold := 0, stats := zeroHTStats } else
  let threshold := codeHighTicketThreshold prices
  let no_data := itemsC.filterMap (fun it =>
    if it.1 ∉ prices.map Prod.fst ∧ it.2.limit ≤ 8 then
      some ({ name := it.2.name, limit := it.2.limit } : NoDataEntry) else none)
  let results := prices.map (processHT log10 now itemsC volumes capital threshold)
  let filteredL := results.filterMap HTRes.filteredE
  { high_ticket := (results.filterMap HTRes.passedE).insertionSort
      (fun a b => b.flip_score ≤ a.flip_score)
    filtered_items := filteredL.insertionSort (fun a b => b.buy ≤ a.buy)
    no_data_items := no_data
    threshold := pyTrunc threshold
    stats := { total_above_threshold := results.countP (fun r => !r.isSkip)
               no_valid_prices := filteredL.countP (fun e => decide (Reason.noValidPrices ∈ e.reasons))
               stale_prices := filteredL.countP (fun e => decide (Reason.stalePrices ∈ e.reasons))
               bad_spread := filteredL.countP (fun e => decide (Reason.badSpread ∈ e.reasons))
               cant_afford := filteredL.countP (fun e => decide (Reason.cantAfford ∈ e.reasons))
               no_volume := 0
               low_margin := filteredL.countP (fun e => decide (Reason.lowMargin ∈ e.reasons))
               cant_buy_any := filteredL.countP (fun e => decide (Reason.cantBuyAny ∈ e.reasons))
               no_price_data := no_data.length
               passed := results.countP (fun r => r.passedE.isSome) } }

/-! ## Market-mover detector -/

/-- The mover price-trend label; `noneT` is the source's `None` (no
price alert). -/
inductive MoverPT where
  | pumping
  | dumping
  | rising
  | falling
  | noneT
deriving Repr, DecidableEq

/-- The mover margin-trend label; `noneT` is the source's `None`. -/
inductive MoverMT where
  | expanding
  | squeezing
  | noneT
deriving Repr, DecidableEq

/-- The mover price-trend label from the half-split change. -/
def moverPT (pc : ℚ) : MoverPT :=
  if 10 < pc then .pumping
  else if pc < -10 then .dumping
  else if 3 < pc then .rising
  else if pc < -3 then .falling
  else .noneT

/-- The mover margin-trend label from the half-split change. -/
def moverMT (mc : ℚ) : MoverMT :=
  if 3 < mc then .expanding
  else if mc < -3 then .squeezing
  else .noneT

/-- `avg_vol`: the window's mean volume, or `0` when no sample has a
positive volume. -/
def moverAvgVol (volumes_hist : List ℤ) : ℚ :=
  if volumes_hist ≠ [] ∧ volumes_hist.any (fun v => decide (0 < v)) then
    meanI volumes_hist else 0

/-- `vol_ratio`: the last sample's volume over `avg_vol` (1 when the
mean is not positive). -/
def moverVolRatio (volumes_hist : List ℤ) : ℚ :=
  if 0 < moverAvgVol volumes_hist then
    ((volumes_hist.getLastD 0 : ℤ) : ℚ) / moverAvgVol volumes_hist else 1

/-- One market mover (the formatted alert strings are reduced to their
presence, which is what the control flow and the urgency score read). -/
structure Mover where
  id : ℕ
  name : String
  buy : ℤ
  sell : ℤ
  margin : ℤ
  margin_pct : ℚ
  volume : ℤ
  price_trend : MoverPT
  price_change : ℚ
  margin_trend : MoverMT
  margin_change : ℚ
  vol_ratio : ℚ
  urgency : ℤ
  samples : ℕ
deriving DecidableEq

/-- The urgency score of `find_market_movers` (the source's chain of
`"PUMPING" in str(price_trend)` tests, which match exactly the
corresponding labels). -/
def urgencyScore (pt : MoverPT) (mt : MoverMT) (vol_ratio : ℚ) : ℤ :=
  (match pt with
   | .pumping => 50
   | .dumping => 50
   | .rising => 25
   | .falling => 25
   | .noneT => 0) +
  (match mt with
   | .expanding => 20
   | .squeezing => 30
   | .noneT => 0) +
  (if 3 < vol_ratio then 20 else if 2 < vol_ratio then 10 else 0)

/-- The mover row for one item with at least one alert.  When the live
quote is missing a side, the fallback copies the latest history sample
with `buy`/`sell` crossed over (`high = ...['buy']`, `low = ...['sell']`),
verbatim from the source. -/
def mkMover (now : ℤ) (item : Item) (prices : List (ℕ × Quote))
    (volumes : ℕ → Volume) (entry : ℕ × List Sample) : Mover :=
  let recent_h := recentWindow now entry.2
  let p := (List.lookup entry.1 prices).getD quoteD
  let high := if p.high ≠ 0 ∧ p.low ≠ 0 then max p.high p.low
    else (recent_h.getLastD sampleD).buy
  let low := if p.high ≠ 0 ∧ p.low ≠ 0 then min p.high p.low
    else (recent_h.getLastD sampleD).sell
  let margin := if high ≠ 0 ∧ low ≠ 0 then flipMargin high low else 0
  let pt := moverPT (halfPriceChange (recent_h.map (·.buy)))
  let mt := moverMT (halfMarginChange (recent_h.map (·.margin_pct)))
  let vr := moverVolRatio (recent_h.map (·.volume))
  { id := entry.1, name := item.name, buy := low, sell := high,
    margin := margin,
    margin_pct := if low ≠ 0 then ((margin : ℤ) : ℚ) / low * 100 else 0,
    volume := totalVol (volumes entry.1), price_trend := pt,
    price_change := halfPriceChange (recent_h.map (·.buy)),
    margin_trend := mt,
    margin_change := halfMarginChange (recent_h.map (·.margin_pct)),
    vol_ratio := vr, urgency := urgencyScore pt mt vr,
    samples := recent_h.length }

/-- Descending stable sort by urgency (`movers.sort(key=...,
reverse=True)`). -/
def sortMovers (l : List Mover) : List Mover :=
  l.insertionSort (fun a b => b.urgency ≤ a.urgency)

/-- The per-item body of the `find_market_movers` loop over
`history.items()`; `none` models `continue` (no alert, too few
samples, or unknown item). -/
def processMover (now : ℤ) (itemsC : List (ℕ × Item))
    (prices : List (ℕ × Quote)) (volumes : ℕ → Volume)
    (entry : ℕ × List Sample) : Option Mover :=
  if entry.2.length < 3 then none else
  match List.lookup entry.1 itemsC with
  | none => none
  | some item =>
    if (recentWindow now entry.2).length < 3 then none else
    if moverPT (halfPriceChange ((recentWindow now entry.2).map (·.buy))) = .noneT ∧
       moverMT (halfMarginChange ((recentWindow now entry.2).map (·.margin_pct))) = .noneT ∧
       ¬ 2 < moverVolRatio ((recentWindow now entry.2).map (·.volume)) then none else
    some (mkMover now item prices volumes entry)

/-- `find_market_movers`: flag any item with a price, margin or volume
alert and rank by descending urgency. -/
def find_market_movers (now : ℤ) (itemsC : List (ℕ × Item))
    (history : List (ℕ × List Sample)) (prices : List (ℕ × Quote))
    (volumes : ℕ → Volume) : List Mover :=
  sortMovers (history.filterMap (processMover now itemsC prices volumes))

/-! ## Generic list lemmas -/

theorem all_eq_of_perm {α : Type} {l₁ l₂ : List α} (h : l₁.Perm l₂) (p : α → Bool) :
    l₁.all p = l₂.all p := by
  induction h with
  | nil => rfl
  | cons a _ ih => simp [List.all_cons, ih]
  | swap a b l => simp [List.all_cons, Bool.and_left_comm]
  | trans _ _ ih₁ ih₂ => rw [ih₁, ih₂]

theorem all_insertionSort {α : Type} (r : α → α → Prop) [DecidableRel r]
    (l : List α) (p : α → Bool) :
    (l.insertionSort r).all p = l.all p :=
  all_eq_of_perm (List.perm_insertionSort r l) p

theorem all_filterMap_of {α β : Type} (f : α → Option β) (p : β → Bool)
    (h : ∀ x y, f x = some y → p y = true) (l : List α) :
    (l.filterMap f).all p = true := by
  induction l with
  | nil => rfl
  | cons a l ih =>
    cases hfa : f a with
    | none => simpa [List.filterMap_cons, hfa] using ih
    | some b => simp [List.filterMap_cons, hfa, ih, h a b hfa]

theorem length_filterMap_eq_countP {α β : Type} (f : α → Option β) (l : List α) :
    (l.filterMap f).length = l.countP (fun a => (f a).isSome) := by
  induction l with
  | nil => rfl
  | cons a l ih =>
    cases hfa : f a <;> simp [List.filterMap_cons, hfa, List.countP_cons, ih]

/-! ## C9: breach windows -/

/-- C9.  With the fixed schedule `[2, 10, 19]` UTC and a 2-hour
post-breach window, any wall-clock time with hour 3 reports
`in_post_breach = true` with `current_breach = 2`, and any time with
hour 23 reports the next breach as hour 2 rolled to the following day. -/
theorem breach_hour3_and_hour23 (m : ℤ) :
    (get_breach_info 3 m).in_post_breach = true ∧
    (get_breach_info 3 m).current_breach = some 2 ∧
    (get_breach_info 23 m).next_breach = 2 ∧
    (get_breach_info 23 m).next_is_tomorrow = true :=
  ⟨rfl, rfl, rfl, rfl⟩

/-! ## C3: history-store bound and eviction -/

theorem appendTrim_length_le (buf : List Sample) (s : Sample) :
    (appendTrim buf s).length ≤ 120 := by
  unfold appendTrim lastN
  split
  next h => rw [List.length_drop]; omega
  next h => omega

theorem upsert_bounded {history : List (ℕ × List Sample)} {k : ℕ}
    {v : List Sample} (hh : historyBounded history = true) (hv : v.length ≤ 120) :
    historyBounded (upsert history k v) = true := by
  unfold historyBounded at hh ⊢
  rw [List.all_eq_true] at hh ⊢
  unfold upsert
  split
  · intro e he
    obtain ⟨e', he', hee⟩ := List.mem_map.mp he
    by_cases hk : e'.1 = k
    · rw [if_pos hk] at hee
      subst hee
      simpa using hv
    · rw [if_neg hk] at hee
      subst hee
      exact hh e' he'
  · intro e he
    rcases List.mem_append.mp he with h1 | h1
    · exact hh e h1
    · rw [List.mem_singleton.mp h1]
      simpa using hv

theorem record_prices_step (now : ℤ) (o : Opp) (opps : List Opp)
    (history : List (ℕ × List Sample)) :
    record_prices now (o :: opps) history =
      record_prices now opps
        (upsert history o.id (appendTrim (getHist history o.id) (sampleOf now o))) := rfl

/-- C3.  (1) One `record_prices` cycle preserves the 120-sample bound on
every buffer, so from an empty store every reachable store satisfies
it; (2) eviction is oldest-first: appending a 121st sample to a full
buffer keeps exactly the previous samples 2..120 followed by the new
one, in order. -/
theorem history_bound_and_eviction :
    (∀ (now : ℤ) (opps : List Opp) (history : List (ℕ × List Sample)),
      historyBounded history = true →
      historyBounded (record_prices now opps history) = true) ∧
    (∀ (buf : List Sample) (s : Sample), buf.length = 120 →
      appendTrim buf s = buf.tail ++ [s]) := by
  constructor
  · intro now opps
    induction opps with
    | nil => intro history hh; exact hh
    | cons o opps ih =>
      intro history hh
      rw [record_prices_step]
      exact ih _ (upsert_bounded hh (appendTrim_length_le _ _))
  · intro buf s hlen
    unfold appendTrim lastN
    rw [if_pos (by simp [hlen])]
    have h1 : (buf ++ [s]).length - 120 = 1 := by simp [hlen]
    rw [h1, List.drop_append_of_le_length (by omega), List.drop_one]

def bufFull : List Sample := List.replicate 120 sampleD

def histSmall : List (ℕ × List Sample) := [(7, [sampleD])]

def oppW : Opp :=
  { id := 7, name := "w", buy := 90, sell := 100, margin := 9, margin_pct := 10,
    volume := 12, buy_vol := 6, sell_vol := 6, vol_2hr := 24, vol_4hr := 48,
    profit := 9, gp_per_hr := 0, gp_per_day := 0, gp_per_limit := 9,
    roi_pct := 10, qty := 1, limit := 1, capital_locked := 90, age := 0,
    strategy := .passive, risk := .lowR, smart_agg := 0, smart_bal := 0,
    smart_con := 0 }

/-- Witness for C3 at concrete inputs. -/
theorem history_bound_and_eviction_witness :
    (historyBounded histSmall = true ∧
     historyBounded (record_prices 5 [oppW] histSmall) = true) ∧
    (bufFull.length = 120 ∧
     appendTrim bufFull sampleD = bufFull.tail ++ [sampleD]) :=
  ⟨⟨by decide, history_bound_and_eviction.1 5 [oppW] histSmall (by decide)⟩,
   ⟨by decide, history_bound_and_eviction.2 bufFull sampleD (by decide)⟩⟩

theorem opt_eq_some_getD {α : Type} (o : Option α) (d : α) (h : o.isSome = true) :
    o = some (o.getD d) := by
  cases o with
  | none => simp at h
  | some a => rfl

theorem analyze_isSome (sq : ℚ → ℚ) (now : ℤ) (h : List Sample)
    (hl : 3 ≤ h.length) : (analyze_stability sq now h).isSome = true := by
  unfold analyze_stability
  rw [if_neg (by omega)]
  rfl

/-! ## C5: the analyzer's no-signal condition -/

/-- C5.  The Stability Analyzer returns no result exactly on histories
with fewer than 3 total samples; with 3 or more it always returns a
result — the 30-minute window filter with its last-10 fallback never
empties the signal. -/
theorem analyze_stability_isSome_iff (sq : ℚ → ℚ) (now : ℤ) (h : List Sample) :
    (analyze_stability sq now h).isSome = true ↔ 3 ≤ h.length := by
  unfold analyze_stability
  split
  next hlt => simp; omega
  next hlt => simp; omega

/-! ## C4: the stability score is clamped to [0, 100] -/

/-- C4.  Whatever the history (any margins, any variance, any ages, any
sample count) and whatever value the square root takes, a returned
stability score lies in `[0, 100]`. -/
theorem stability_score_in_range (sq : ℚ → ℚ) (now : ℤ) (h : List Sample)
    (r : Stability) (hr : analyze_stability sq now h = some r) :
    0 ≤ r.stability_score ∧ r.stability_score ≤ 100 := by
  unfold analyze_stability at hr
  split at hr
  · exact absurd hr (by simp)
  · injection hr with hr
    subst hr
    exact ⟨le_min (by norm_num) (le_max_left 0 _), min_le_left _ _⟩

def sqrtStub : ℚ → ℚ := fun q => q

def histHot : List Sample :=
  [⟨100, 50, 60, 1000, 7⟩, ⟨100, 50, 60, 1000, 7⟩, ⟨100, 50, 60, 1000, 7⟩]

def stabD : Stability := ⟨0, 0, 0, 0, 0, .stable, .stable, 0, 0, 0, 0, 0, 0, 0⟩

/-- Witness for C4 at a concrete adversarial history (zero variance,
mean margin 1000). -/
theorem stability_score_in_range_witness :
    0 ≤ ((analyze_stability sqrtStub 100 histHot).getD stabD).stability_score ∧
    ((analyze_stability sqrtStub 100 histHot).getD stabD).stability_score ≤ 100 :=
  stability_score_in_range sqrtStub 100 histHot
    ((analyze_stability sqrtStub 100 histHot).getD stabD)
    (opt_eq_some_getD _ stabD (analyze_isSome sqrtStub 100 histHot (by decide)))

/-! ## C7: the analyzer's window statistics -/

theorem recentWindow_length (now : ℤ) (h : List Sample) (hl : 3 ≤ h.length) :
    3 ≤ (recentWindow now h).length := by
  unfold recentWindow
  split
  · unfold lastN; rw [List.length_drop]; omega
  · omega

/-- C7 (amended).  On every selected window the analyzer computes the
mean of `marginPct` and the *sample* (Bessel-corrected) standard
deviation — the square root of `sampleVariance`, not of the population
variance the spec names. -/
theorem analyzer_window_stats (sq : ℚ → ℚ) (now : ℤ) (h : List Sample)
    (r : Stability) (hr : analyze_stability sq now h = some r) :
    r.avg_margin = mean ((recentWindow now h).map Sample.margin_pct) ∧
    r.margin_std = sq (sampleVariance ((recentWindow now h).map Sample.margin_pct)) := by
  unfold analyze_stability at hr
  split at hr
  · exact absurd hr (by simp)
  next hlen =>
    injection hr with hr
    subst hr
    refine ⟨rfl, ?_⟩
    show (if 1 < ((recentWindow now h).map (fun s => s.margin_pct)).length then _ else _) = _
    rw [if_pos]
    rw [List.length_map]
    have := recentWindow_length now h (by omega)
    omega

def histW7 : List Sample :=
  [⟨2000, 80, 90, 1, 3⟩, ⟨2000, 80, 90, 2, 3⟩, ⟨2000, 80, 90, 6, 3⟩]

/-- Witness for the amended C7 at a concrete history. -/
theorem analyzer_window_stats_witness :
    ((analyze_stability sqrtStub 2000 histW7).getD stabD).avg_margin =
      mean ((recentWindow 2000 histW7).map Sample.margin_pct) ∧
    ((analyze_stability sqrtStub 2000 histW7).getD stabD).margin_std =
      sqrtStub (sampleVariance ((recentWindow 2000 histW7).map Sample.margin_pct)) :=
  analyzer_window_stats sqrtStub 2000 histW7
    ((analyze_stability sqrtStub 2000 histW7).getD stabD)
    (opt_eq_some_getD _ stabD (analyze_isSome sqrtStub 2000 histW7 (by decide)))

def histVar : List Sample :=
  [⟨1000, 50, 60, 0, 7⟩, ⟨1000, 50, 60, 2, 7⟩, ⟨1000, 50, 60, 4, 7⟩]

/-- C7 counterexample.  On the window with margins `[0, 2, 4]` the code's
`statistics.stdev` squares to the sample variance `4`, while the
population standard deviation of the same window squares to `8/3`; the
two square roots differ, so the analyzer does not compute the
population standard deviation. -/
theorem stdev_sample_vs_population :
    (recentWindow 1000 histVar).map Sample.margin_pct = [0, 2, 4] ∧
    sampleVariance [0, 2, 4] = 4 ∧
    popVariance [0, 2, 4] = 8/3 ∧
    (analyze_stability sqrtStub 1000 histVar).map Stability.margin_std = some 4 ∧
    Real.sqrt ((4 : ℚ) : ℝ) ≠ Real.sqrt (((8 : ℚ)/3 : ℚ) : ℝ) := by
  have hw : (recentWindow 1000 histVar).map Sample.margin_pct = [0, 2, 4] := by decide
  have hs : sampleVariance [0, 2, 4] = 4 := by
    norm_num [sampleVariance, mean]
  refine ⟨hw, hs, by norm_num [popVariance, mean], ?_, ?_⟩
  · have h1 : analyze_stability sqrtStub 1000 histVar =
        some (mkStability sqrtStub 1000 (recentWindow 1000 histVar)) := by
      unfold analyze_stability
      rw [if_neg (by decide)]
    rw [h1]
    show some (if 1 < ((recentWindow 1000 histVar).map (fun s => s.margin_pct)).length
      then sqrtStub (sampleVariance ((recentWindow 1000 histVar).map (fun s => s.margin_pct)))
      else 0) = some 4
    rw [show ((recentWindow 1000 histVar).map (fun s => s.margin_pct)) = [0, 2, 4] from hw]
    rw [if_pos (by norm_num), hs]
    rfl
  · have h4 : ((4 : ℚ) : ℝ) = 4 := by norm_num
    have h83 : (((8 : ℚ)/3 : ℚ) : ℝ) = 8/3 := by push_cast; ring
    rw [h4, h83]
    intro heq
    have h2 : Real.sqrt 4 = 2 := by
      rw [show (4 : ℝ) = 2 ^ 2 by norm_num]
      exact Real.sqrt_sq (by norm_num)
    have h3 : Real.sqrt (8/3) ^ 2 = 8/3 := Real.sq_sqrt (by norm_num)
    rw [← heq, h2] at h3
    norm_num at h3

/-! ## C8: urgency ranking -/

/-- C8.  At any volume ratio a Pumping item with a Squeezing margin
scores strictly higher urgency than a Rising item with a stable (no
alert) margin; and the descending sort places any strictly
higher-urgency mover ahead, so the former always outranks the latter. -/
theorem urgency_monotone_and_ranking :
    (∀ v : ℚ, urgencyScore .rising .noneT v < urgencyScore .pumping .squeezing v) ∧
    (∀ a b : Mover, b.urgency < a.urgency → sortMovers [b, a] = [a, b]) := by
  constructor
  · intro v
    show (25 : ℤ) + 0 + _ < 50 + 30 + _
    omega
  · intro a b hlt
    unfold sortMovers
    simp [List.insertionSort, List.orderedInsert, not_le.mpr hlt]

def moverHot : Mover := ⟨1, "p", 10, 20, 9, 90, 5, .pumping, 12, .squeezing, -4, 1, 80, 3⟩

def moverMild : Mover := ⟨2, "r", 10, 20, 9, 90, 5, .rising, 5, .noneT, 0, 1, 25, 3⟩

/-- Witness for C8 at a concrete volume ratio and a concrete mover pair. -/
theorem urgency_monotone_and_ranking_witness :
    urgencyScore .rising .noneT 1 < urgencyScore .pumping .squeezing 1 ∧
    moverMild.urgency < moverHot.urgency ∧
    sortMovers [moverMild, moverHot] = [moverHot, moverMild] :=
  ⟨urgency_monotone_and_ranking.1 1, by decide,
   urgency_monotone_and_ranking.2 moverHot moverMild (by decide)⟩

/-! ## C10: the static breach scanner's field orientation -/

/-- C10.  Every emitted breach row copies the quote's raw fields with
`buy := high` and `sell := low` — the opposite orientation to every
other classifier — and satisfies `sell < buy`, because quotes with a
missing side or `high ≤ low` are skipped instead of normalized. -/
theorem breach_scanner_raw_orientation (prices : List (ℕ × Quote))
    (volumes : ℕ → Volume) (itemsC : List (ℕ × Item)) :
    (scan_breach_items prices volumes itemsC).all (fun e =>
      match List.lookup e.item_id prices with
      | some q => decide (e.buy = q.high ∧ e.sell = q.low ∧ e.sell < e.buy)
      | none => false) = true := by
  unfold scan_breach_items
  rw [all_insertionSort]
  refine all_filterMap_of _ _ ?_ _
  intro bi e hbe
  cases hq : List.lookup bi.1 prices with
  | none => exact absurd hbe (by simp [hq])
  | some p =>
    simp only [hq] at hbe
    split at hbe
    · exact absurd hbe (by simp)
    next hcond =>
      injection hbe with hbe
      subst hbe
      push_neg at hcond
      obtain ⟨h1, h2, h3⟩ := hcond
      have hid : (mkBreachOpp volumes itemsC bi p).item_id = bi.1 := rfl
      rw [hid, hq]
      simp only [decide_eq_true_eq]
      exact ⟨rfl, rfl, h3⟩

/-! ## Per-item lemmas for the classifiers -/

theorem taxOf_eq_floor (s : ℤ) (hs : 0 ≤ s) : taxOf s = ⌊(s : ℚ) / 100⌋ := by
  unfold taxOf pyTrunc
  rw [if_neg (not_lt.mpr (mul_nonneg (by exact_mod_cast hs) (by norm_num))), mul_one_div]

theorem ite_append_ne_nil {c : Prop} [Decidable c] {l : List Reason} {r : Reason}
    (h : l ≠ []) : (if c then l ++ [r] else l) ≠ [] := by
  split
  · intro hh
    simp at hh
  · exact h

theorem processOpp_spec (log10 : ℚ → ℚ) (now : ℤ) (itemsC : List (ℕ × Item))
    (volumes : ℕ → Volume) (capital : ℤ) (mn mx : ℚ) (x : ℕ × Quote) (y : Opp)
    (h : processOpp log10 now itemsC volumes capital mn mx x = some y) :
    y.buy ≤ y.sell ∧ 0 < y.buy ∧
    y.margin = y.sell - y.buy - ⌊(y.sell : ℚ) / 100⌋ ∧
    y.margin_pct = (y.margin : ℚ) / y.buy * 100 := by
  unfold processOpp at h
  cases hl : List.lookup x.1 itemsC with
  | none => exact absurd h (by simp [hl])
  | some item =>
    simp only [hl] at h
    split at h
    · exact absurd h (by simp)
    split at h
    · exact absurd h (by simp)
    next hc2 =>
    split at h
    · exact absurd h (by simp)
    split at h
    · exact absurd h (by simp)
    split at h
    · exact absurd h (by simp)
    split at h
    · exact absurd h (by simp)
    injection h with h
    subst h
    push_neg at hc2
    have hlow : (0 : ℤ) < normLow x.2 := by
      have h10 := hc2.2.1
      omega
    have hsell : (0 : ℤ) ≤ normHigh x.2 :=
      le_trans (le_of_lt hlow) min_le_max
    refine ⟨min_le_max, hlow, ?_, ?_⟩
    · show flipMargin (normHigh x.2) (normLow x.2) =
        normHigh x.2 - normLow x.2 - ⌊((normHigh x.2 : ℤ) : ℚ) / 100⌋
      unfold flipMargin
      rw [taxOf_eq_floor _ hsell]
    · show marginPctOf (flipMargin (normHigh x.2) (normLow x.2)) (normLow x.2) = _
      unfold marginPctOf
      rw [if_pos hlow]
      rfl

theorem processStable_spec (sq log10 : ℚ → ℚ) (now : ℤ) (itemsC : List (ℕ × Item))
    (history : List (ℕ × List Sample)) (prices : List (ℕ × Quote))
    (volumes : ℕ → Volume) (capital : ℤ) (fs fl : Bool) (k : ℕ) (y : StablePick)
    (h : processStable sq log10 now itemsC history prices volumes capital fs fl k = some y) :
    y.buy ≤ y.sell ∧ 0 < y.buy ∧
    y.margin = y.sell - y.buy - ⌊(y.sell : ℚ) / 100⌋ ∧
    y.margin_pct = (y.margin : ℚ) / y.buy * 100 := by
  unfold processStable at h
  cases hl : List.lookup k itemsC with
  | none => exact absurd h (by simp [hl])
  | some item =>
    simp only [hl] at h
    cases ha : analyze_stability sq now (getHist history k) with
    | none => exact absurd h (by simp [ha])
    | some a =>
      simp only [ha] at h
      split at h
      · exact absurd h (by simp)
      split at h
      · exact absurd h (by simp)
      split at h
      · exact absurd h (by simp)
      split at h
      · exact absurd h (by simp)
      next hq4 =>
      split at h
      · exact absurd h (by simp)
      split at h
      · exact absurd h (by simp)
      injection h with h
      subst h
      have hlow : (0 : ℤ) < normLow ((List.lookup k prices).getD quoteD) := by
        by_contra hn
        apply hq4
        unfold maxQty
        rw [if_neg hn]
        norm_num
      have hsell : (0 : ℤ) ≤ normHigh ((List.lookup k prices).getD quoteD) :=
        le_trans (le_of_lt hlow) min_le_max
      refine ⟨min_le_max, hlow, ?_, ?_⟩
      · show flipMargin _ _ = _
        unfold flipMargin
        rw [taxOf_eq_floor _ hsell]
        rfl
      · show marginPctOf _ _ = _
        unfold marginPctOf
        rw [if_pos hlow]
        rfl

theorem htReasons_missing (now capital : ℤ) (item : Item) (p : Quote)
    (hc : p.high = 0 ∨ p.low = 0) : htReasons now capital item p ≠ [] := by
  unfold htReasons
  apply ite_append_ne_nil
  apply ite_append_ne_nil
  apply ite_append_ne_nil
  apply ite_append_ne_nil
  apply ite_append_ne_nil
  rw [if_pos]
  · simp
  · by_cases hb : p.high ≠ 0 ∧ p.low ≠ 0
    · exact absurd hc (by tauto)
    · unfold htHigh htLow
      rw [if_neg hb, if_neg hb]
      tauto

theorem processHT_passed (log10 : ℚ → ℚ) (now : ℤ) (itemsC : List (ℕ × Item))
    (volumes : ℕ → Volume) (capital : ℤ) (threshold : ℚ) (x : ℕ × Quote) (e : HTEntry)
    (h : (processHT log10 now itemsC volumes capital threshold x).passedE = some e) :
    e.buy ≤ e.sell ∧ threshold ≤ ((e.sell : ℤ) : ℚ) := by
  unfold processHT at h
  cases hl : List.lookup x.1 itemsC with
  | none => exact absurd h (by simp [hl, HTRes.passedE])
  | some item =>
    simp only [hl] at h
    split at h
    · exact absurd h (by simp [HTRes.passedE])
    next hthr =>
    split at h
    · exact absurd h (by simp [HTRes.passedE])
    next hre =>
      injection h with h
      subst h
      push_neg at hre hthr
      by_cases hb : x.2.high ≠ 0 ∧ x.2.low ≠ 0
      · constructor
        · show htLow x.2 ≤ htHigh x.2
          unfold htLow htHigh
          rw [if_pos hb, if_pos hb]
          exact min_le_max
        · show threshold ≤ ((htHigh x.2 : ℤ) : ℚ)
          unfold htHigh
          rw [if_pos hb]
          exact hthr.2
      · exact absurd hre (htReasons_missing now capital item x.2 (by tauto))

theorem mkMover_id (now : ℤ) (item : Item) (prices : List (ℕ × Quote))
    (volumes : ℕ → Volume) (entry : ℕ × List Sample) :
    (mkMover now item prices volumes entry).id = entry.1 := rfl

theorem mkMover_buy (now : ℤ) (item : Item) (prices : List (ℕ × Quote))
    (volumes : ℕ → Volume) (entry : ℕ × List Sample) :
    (mkMover now item prices volumes entry).buy =
      (if ((List.lookup entry.1 prices).getD quoteD).high ≠ 0 ∧
          ((List.lookup entry.1 prices).getD quoteD).low ≠ 0 then
        min ((List.lookup entry.1 prices).getD quoteD).high
          ((List.lookup entry.1 prices).getD quoteD).low
      else ((recentWindow now entry.2).getLastD sampleD).sell) := rfl

theorem mkMover_sell (now : ℤ) (item : Item) (prices : List (ℕ × Quote))
    (volumes : ℕ → Volume) (entry : ℕ × List Sample) :
    (mkMover now item prices volumes entry).sell =
      (if ((List.lookup entry.1 prices).getD quoteD).high ≠ 0 ∧
          ((List.lookup entry.1 prices).getD quoteD).low ≠ 0 then
        max ((List.lookup entry.1 prices).getD quoteD).high
          ((List.lookup entry.1 prices).getD quoteD).low
      else ((recentWindow now entry.2).getLastD sampleD).buy) := rfl

theorem processMover_norm (now : ℤ) (itemsC : List (ℕ × Item))
    (prices : List (ℕ × Quote)) (volumes : ℕ → Volume)
    (entry : ℕ × List Sample) (m : Mover)
    (h : processMover now itemsC prices volumes entry = some m) :
    (match List.lookup m.id prices with
     | some q => if q.high ≠ 0 ∧ q.low ≠ 0 then decide (m.buy ≤ m.sell) else true
     | none => true) = true := by
  unfold processMover at h
  split at h
  · exact absurd h (by simp)
  cases hl : List.lookup entry.1 itemsC with
  | none => exact absurd h (by simp [hl])
  | some item =>
    simp only [hl] at h
    split at h
    · exact absurd h (by simp)
    split at h
    · exact absurd h (by simp)
    injection h with h
    subst h
    rw [mkMover_id]
    cases hq : List.lookup entry.1 prices with
    | none => rfl
    | some q =>
      show (if q.high ≠ 0 ∧ q.low ≠ 0 then _ else true) = true
      split
      next hb =>
        rw [mkMover_buy, mkMover_sell, hq]
        simp only [Option.getD_some, decide_eq_true_eq]
        rw [if_pos hb, if_pos hb]
        exact min_le_max
      next hb => rfl

theorem filterMap_map' {α β γ : Type} (f : α → β) (g : β → Option γ) (l : List α) :
    (l.map f).filterMap g = l.filterMap (fun a => g (f a)) := by
  induction l with
  | nil => rfl
  | cons a l ih => cases hg : g (f a) <;> simp [List.filterMap_cons, hg, ih]

/-! ## C1: min/max normalization gives sell ≥ buy -/

/-- C1.  In every row emitted by the Opportunity Scorer, the Stable-Pick
Selector and the High-Ticket Classifier, and in every Market-Mover row
whose item has a live quote with both sides present, the prices were
normalized with `sell = max(instantBuy, instantSell)` and `buy = min`,
so `buy ≤ sell` holds whatever order the feed reported the fields in.
(A mover whose quote is absent or one-sided prices from the history
fallback instead, and no feed quote is processed for it.) -/
theorem normalized_sell_ge_buy (log10 sq : ℚ → ℚ) (now : ℤ)
    (itemsC : List (ℕ × Item)) (prices : List (ℕ × Quote))
    (history : List (ℕ × List Sample)) (volumes : ℕ → Volume)
    (capital : ℤ) (mn mx : ℚ) (fs fl : Bool) :
    (find_opportunities log10 now itemsC prices volumes capital mn mx).all
      (fun e => decide (e.buy ≤ e.sell)) = true ∧
    (get_stable_picks sq log10 now itemsC history prices volumes capital fs fl).all
      (fun e => decide (e.buy ≤ e.sell)) = true ∧
    (find_high_ticket_items log10 now itemsC prices volumes capital).high_ticket.all
      (fun e => decide (e.buy ≤ e.sell)) = true ∧
    (find_market_movers now itemsC history prices volumes).all
      (fun m => match List.lookup m.id prices with
        | some q => if q.high ≠ 0 ∧ q.low ≠ 0 then decide (m.buy ≤ m.sell) else true
        | none => true) = true := by
  refine ⟨?_, ?_, ?_, ?_⟩
  · unfold find_opportunities
    rw [all_insertionSort]
    exact all_filterMap_of _ _ (fun x y hxy => by
      simp only [decide_eq_true_eq]
      exact (processOpp_spec log10 now itemsC volumes capital mn mx x y hxy).1) _
  · unfold get_stable_picks
    rw [all_insertionSort]
    exact all_filterMap_of _ _ (fun k y hky => by
      simp only [decide_eq_true_eq]
      exact (processStable_spec sq log10 now itemsC history prices volumes capital
        fs fl k y hky).1) _
  · unfold find_high_ticket_items
    split
    · rfl
    · show (((prices.map (processHT log10 now itemsC volumes capital
          (codeHighTicketThreshold prices))).filterMap HTRes.passedE).insertionSort
          (fun a b => b.flip_score ≤ a.flip_score)).all
          (fun e => decide (e.buy ≤ e.sell)) = true
      rw [all_insertionSort, filterMap_map']
      exact all_filterMap_of _ _ (fun x e hxe => by
        simp only [decide_eq_true_eq]
        exact (processHT_passed log10 now itemsC volumes capital
          (codeHighTicketThreshold prices) x e hxe).1) _
  · unfold find_market_movers sortMovers
    rw [all_insertionSort]
    exact all_filterMap_of _ _
      (fun entry m hm => processMover_norm now itemsC prices volumes entry m hm) _

/-! ## C2: the margin formula -/

/-- C2.  Every row of the Opportunity Scorer and of the Stable-Pick
Selector satisfies `margin = sell - buy - floor(sell * 0.01)` and
`marginPct = margin / buy * 100`; in particular `sell = 1000`,
`buy = 900` gives margin `90` and margin percent exactly `10`. -/
theorem margin_formula_everywhere (log10 sq : ℚ → ℚ) (now : ℤ)
    (itemsC : List (ℕ × Item)) (prices : List (ℕ × Quote))
    (history : List (ℕ × List Sample)) (volumes : ℕ → Volume)
    (capital : ℤ) (mn mx : ℚ) (fs fl : Bool) :
    (find_opportunities log10 now itemsC prices volumes capital mn mx).all
      (fun e => decide (e.margin = e.sell - e.buy - ⌊(e.sell : ℚ) / 100⌋ ∧
        e.margin_pct = (e.margin : ℚ) / e.buy * 100)) = true ∧
    (get_stable_picks sq log10 now itemsC history prices volumes capital fs fl).all
      (fun e => decide (e.margin = e.sell - e.buy - ⌊(e.sell : ℚ) / 100⌋ ∧
        e.margin_pct = (e.margin : ℚ) / e.buy * 100)) = true ∧
    flipMargin 1000 900 = 90 ∧
    ((flipMargin 1000 900 : ℤ) : ℚ) / 900 * 100 = 10 := by
  refine ⟨?_, ?_, ?_, ?_⟩
  · unfold find_opportunities
    rw [all_insertionSort]
    exact all_filterMap_of _ _ (fun x y hxy => by
      simp only [decide_eq_true_eq]
      exact ⟨(processOpp_spec log10 now itemsC volumes capital mn mx x y hxy).2.2.1,
        (processOpp_spec log10 now itemsC volumes capital mn mx x y hxy).2.2.2⟩) _
  · unfold get_stable_picks
    rw [all_insertionSort]
    exact all_filterMap_of _ _ (fun k y hky => by
      simp only [decide_eq_true_eq]
      exact ⟨(processStable_spec sq log10 now itemsC history prices volumes capital
          fs fl k y hky).2.2.1,
        (processStable_spec sq log10 now itemsC history prices volumes capital
          fs fl k y hky).2.2.2⟩) _
  · norm_num [flipMargin, taxOf, pyTrunc]
  · norm_num [flipMargin, taxOf, pyTrunc]

/-! ## C6: the high-ticket price threshold -/

def pricesInv : List (ℕ × Quote) :=
  [(1, ⟨10, 100, 5, 5⟩), (2, ⟨50, 40, 5, 5⟩)]

/-- C6 counterexample.  With an inverted quote `{high: 10, low: 100}`
and a normal quote `{high: 50, low: 40}`, the threshold the code
computes (the 75th percentile of the raw `high` fields, `[10, 50]`) is
`40`, while the 75th percentile of the normalized sell prices
(`[100, 50]`) is `87.5` — the threshold population is not the
normalized sell prices. -/
theorem threshold_raw_not_normalized :
    codeHighTicketThreshold pricesInv = 40 ∧
    specHighTicketThreshold pricesInv = 175/2 ∧
    (40 : ℚ) ≠ 175/2 := by
  refine ⟨?_, ?_, by norm_num⟩
  · have hs : (allHighPrices pricesInv).insertionSort (· ≤ ·) = [10, 50] := by decide
    unfold codeHighTicketThreshold percentile75
    rw [hs, if_neg (by decide)]
    have hpos : p75pos [10, 50] = 3/4 := by norm_num [p75pos]
    have hidx : p75idx [10, 50] = 0 := by
      unfold p75idx
      rw [hpos]
      norm_num
    unfold percentileBody
    rw [hidx, hpos]
    rw [show ([10, 50] : List ℤ).getD (0 + 1) (([10, 50] : List ℤ).getD 0 0) = 50 from by decide]
    rw [show ([10, 50] : List ℤ).getD 0 0 = 10 from by decide]
    norm_num
  · have hs : ((pricesInv.filterMap (fun e =>
        if e.2.high ≠ 0 ∨ e.2.low ≠ 0 then some (max e.2.high e.2.low)
        else none)).insertionSort (· ≤ ·)) = [50, 100] := by decide
    unfold specHighTicketThreshold percentile75
    rw [hs, if_neg (by decide)]
    have hpos : p75pos [50, 100] = 3/4 := by norm_num [p75pos]
    have hidx : p75idx [50, 100] = 0 := by
      unfold p75idx
      rw [hpos]
      norm_num
    unfold percentileBody
    rw [hidx, hpos]
    rw [show ([50, 100] : List ℤ).getD (0 + 1) (([50, 100] : List ℤ).getD 0 0) = 100 from by decide]
    rw [show ([50, 100] : List ℤ).getD 0 0 = 50 from by decide]
    norm_num

theorem countP_not_skip (l : List HTRes) :
    l.countP (fun r => !r.isSkip) =
      (l.filterMap HTRes.passedE).length + (l.filterMap HTRes.filteredE).length := by
  induction l with
  | nil => rfl
  | cons a l ih =>
    rw [List.countP_cons, List.filterMap_cons, List.filterMap_cons]
    cases a with
    | skip =>
      rw [show HTRes.passedE .skip = none from rfl, show HTRes.filteredE .skip = none from rfl]
      simpa using ih
    | filtered e =>
      rw [show (!(HTRes.filtered e).isSkip) = true from rfl, if_pos rfl, ih]
      show _ = (List.filterMap HTRes.passedE l).length +
        (e :: List.filterMap HTRes.filteredE l).length
      simp only [List.length_cons]
      omega
    | passed e =>
      rw [show (!(HTRes.passed e).isSkip) = true from rfl, if_pos rfl, ih]
      show _ = (e :: List.filterMap HTRes.passedE l).length +
        (List.filterMap HTRes.filteredE l).length
      simp only [List.length_cons]
      omega

def pricesTen : List (ℕ × Quote) :=
  [(1, ⟨10, 9, 5, 5⟩), (2, ⟨20, 18, 5, 5⟩), (3, ⟨30, 27, 5, 5⟩),
   (4, ⟨40, 36, 5, 5⟩), (5, ⟨50, 45, 5, 5⟩), (6, ⟨60, 54, 5, 5⟩),
   (7, ⟨70, 63, 5, 5⟩), (8, ⟨80, 72, 5, 5⟩), (9, ⟨90, 81, 5, 5⟩),
   (10, ⟨100, 90, 5, 5⟩)]

/-- C6 (amended).  The High-Ticket threshold is the interpolated 75th
percentile of the raw `high` fields of quotes with a positive `high`
(these equal the normalized sell prices only when the feed is not
inverted, and quotes reporting only a `low` are ignored): for the ten
sell prices `10, 20, ..., 100` reported in the `high` fields it equals
`77.5`.  Only items whose normalized maximal price is at least the
threshold are considered: every passed row sells at or above the
threshold, and the above-threshold counter counts exactly the passed
and rejected rows. -/
theorem threshold_percentile_and_gate (log10 : ℚ → ℚ) (now : ℤ)
    (itemsC : List (ℕ × Item)) (prices : List (ℕ × Quote))
    (volumes : ℕ → Volume) (capital : ℤ) :
    codeHighTicketThreshold pricesTen = 155/2 ∧
    (find_high_ticket_items log10 now itemsC prices volumes capital).high_ticket.all
      (fun e => decide (codeHighTicketThreshold prices ≤ ((e.sell : ℤ) : ℚ))) = true ∧
    (find_high_ticket_items log10 now itemsC prices volumes capital).stats.total_above_threshold =
      (find_high_ticket_items log10 now itemsC prices volumes capital).high_ticket.length +
      (find_high_ticket_items log10 now itemsC prices volumes capital).filtered_items.length := by
  refine ⟨?_, ?_, ?_⟩
  · have hs : (allHighPrices pricesTen).insertionSort (· ≤ ·) =
        [10, 20, 30, 40, 50, 60, 70, 80, 90, 100] := by decide
    unfold codeHighTicketThreshold percentile75
    rw [hs, if_neg (by decide)]
    have hpos : p75pos [10, 20, 30, 40, 50, 60, 70, 80, 90, 100] = 27/4 := by
      norm_num [p75pos]
    have hidx : p75idx [10, 20, 30, 40, 50, 60, 70, 80, 90, 100] = 6 := by
      unfold p75idx
      rw [hpos, show ⌊(27 : ℚ)/4⌋ = (6 : ℤ) from by norm_num]
      decide
    unfold percentileBody
    rw [hidx, hpos]
    rw [show ([10, 20, 30, 40, 50, 60, 70, 80, 90, 100] : List ℤ).getD (6 + 1)
        (([10, 20, 30, 40, 50, 60, 70, 80, 90, 100] : List ℤ).getD 6 0) = 80 from by decide]
    rw [show ([10, 20, 30, 40, 50, 60, 70, 80, 90, 100] : List ℤ).getD 6 0 = 70 from by decide]
    norm_num
  · unfold find_high_ticket_items
    split
    · rfl
    · show (((prices.map (processHT log10 now itemsC volumes capital
          (codeHighTicketThreshold prices))).filterMap HTRes.passedE).insertionSort
          (fun a b => b.flip_score ≤ a.flip_score)).all
          (fun e => decide (codeHighTicketThreshold prices ≤ ((e.sell : ℤ) : ℚ))) = true
      rw [all_insertionSort, filterMap_map']
      exact all_filterMap_of _ _ (fun x e hxe => by
        simp only [decide_eq_true_eq]
        exact (processHT_passed log10 now itemsC volumes capital
          (codeHighTicketThreshold prices) x e hxe).2) _
  · unfold find_high_ticket_items
    split
    · rfl
    · show ((prices.map (processHT log10 now itemsC volumes capital
          (codeHighTicketThreshold prices))).countP (fun r => !r.isSkip)) =
        (((prices.map (processHT log10 now itemsC volumes capital
          (codeHighTicketThreshold prices))).filterMap HTRes.passedE).insertionSort
          (fun a b => b.flip_score ≤ a.flip_score)).length +
        (((prices.map (processHT log10 now itemsC volumes capital
          (codeHighTicketThreshold prices))).filterMap HTRes.filteredE).insertionSort
          (fun a b => b.buy ≤ a.buy)).length
      rw [List.length_insertionSort, List.length_insertionSort, countP_not_skip]

end DMM
